import Mathlib

/-!
Verification of the S1 audio/video capture pipeline (`rk-av-queue-pts`).

The development shallowly embeds the pipeline's pure/sequential core:

* `src/src/bqueue.c` — the bounded blocking queue (`BQueue`), embedded as a
  record holding the ring-buffer array (`items`, a list of `Option α` slots,
  `none` standing for `NULL`), `capacity`, `size`, `head`, `tail` and the
  `closed` flag.  Each C operation runs entirely inside the queue mutex, so a
  concurrent execution is a sequence of atomic commits; a blocking operation
  that has not committed yet (full `push`, empty `pop`) is modelled by the
  `Option.none` result of the corresponding step function.
* `src/src/main.c` — `request_stop`, the V4L2 sequence-gap drop accounting of
  `video_capture_thread`, the audio PTS advance of `audio_capture_thread`,
  and the per-chunk bookkeeping of `pcm_sink_thread`.
* `src/src/app_config.c` — `app_config_parse_args` (option switch, `--size`
  validation, post-parse repair of `fps`/`bitrate`/`sample_rate`/`channels`).

Machine integers are embedded as `Nat` with explicit `% 2 ^ w` where the C
computation can wrap (`uint32_t` V4L2 sequences, `uint64_t` PTS arithmetic).
-/

/-- The modulus `2 ^ 32` of C `uint32_t` arithmetic. -/
def U32 : Nat := 4294967296

/-- The modulus `2 ^ 64` of C `uint64_t` arithmetic. -/
def U64 : Nat := 18446744073709551616

/-! ## `bqueue.c`: the bounded blocking queue -/

/-- State of a `BQueue` (`bqueue.c` / `rkav/bqueue.h`).  `items` is the
`void **` ring array allocated by `bq_init` (`none` = `NULL` slot); `head` is
the dequeue index, `tail` the enqueue index, `closed` the close flag.  The
pthread mutex and condition variables have no state visible to the embedded
sequential semantics and are omitted. -/
structure BQueue (α : Type) where
  items : List (Option α)
  capacity : Nat
  size : Nat
  head : Nat
  tail : Nat
  closed : Bool
deriving Repr, DecidableEq

/-- Function `bq_init` (bqueue.c:32-56): rejects `capacity == 0`, otherwise returns a
fresh queue whose array is `calloc`-zeroed (all slots `NULL`), with
`size = head = tail = 0` and `closed = 0`.  The `!q` pointer check and a
`calloc` failure are both collapsed into the `none` result. -/
def bq_init (α : Type) (capacity : Nat) : Option (BQueue α) :=
  if capacity = 0 then none
  else some { items := List.replicate capacity none
              capacity := capacity
              size := 0
              head := 0
              tail := 0
              closed := false }

/-- Function `bq_close` (bqueue.c:68-78): sets the `closed` flag (the broadcasts only
wake waiters and do not change queue state). -/
def bq_close (q : BQueue α) : BQueue α :=
  { q with closed := true }

/-- Function `bq_push` (bqueue.c:116-142).  The C call waits while
`!closed && size == capacity`; a call still parked in `pthread_cond_wait` has
not committed, which the embedding renders as `none`.  Once past the wait it
returns `-1` if `closed`, else writes `item` at `tail`, advances `tail`
circularly and increments `size`, returning `0`. -/
def bq_push (q : BQueue α) (item : α) : Option (Int × BQueue α) :=
  if q.closed = false ∧ q.size = q.capacity then
    none
  else if q.closed then
    some (-1, q)
  else
    some (0, { q with items := q.items.set q.tail (some item)
                      tail := (q.tail + 1) % q.capacity
                      size := q.size + 1 })

/-- Function `bq_try_push` (bqueue.c:153-177): never blocks; returns `-1` when closed,
`1` when full, otherwise enqueues exactly like `bq_push` and returns `0`. -/
def bq_try_push (q : BQueue α) (item : α) : Int × BQueue α :=
  if q.closed then
    (-1, q)
  else if q.size = q.capacity then
    (1, q)
  else
    (0, { q with items := q.items.set q.tail (some item)
                 tail := (q.tail + 1) % q.capacity
                 size := q.size + 1 })

/-- Function `bq_pop` (bqueue.c:188-217).  Waits while `!closed && size == 0` (`none`
= still parked).  Past the wait: if `size == 0 && closed` it returns `0` with
no item (terminal sentinel, state untouched); otherwise it reads the slot at
`head`, clears it to `NULL`, advances `head` circularly, decrements `size`
and returns `1` together with the item. -/
def bq_pop (q : BQueue α) : Option (Int × Option α × BQueue α) :=
  if q.closed = false ∧ q.size = 0 then
    none
  else if q.size = 0 ∧ q.closed = true then
    some (0, none, q)
  else
    some (1, q.items.getD q.head none,
          { q with items := q.items.set q.head none
                   head := (q.head + 1) % q.capacity
                   size := q.size - 1 })

/-- Function `bq_size` (bqueue.c:225-234). -/
def bq_size (q : BQueue α) : Nat := q.size

/-- Function `bq_capacity` (bqueue.c:242-246). -/
def bq_capacity (q : BQueue α) : Nat := q.capacity

/-- The live contents of the ring buffer, read in FIFO order: the `size`
slots starting at `head`, wrapping modulo `capacity`. -/
def ringList (q : BQueue α) : List (Option α) :=
  (List.range q.size).map (fun i => q.items.getD ((q.head + i) % q.capacity) none)

/-- Structural invariant of an initialized `BQueue` (claim C9): positive
capacity, array length = capacity, `size ≤ capacity`, both indices in range,
and `tail` sitting `size` slots after `head` modulo `capacity`. -/
structure BQInv (q : BQueue α) : Prop where
  cap_pos : 0 < q.capacity
  items_len : q.items.length = q.capacity
  size_le : q.size ≤ q.capacity
  head_lt : q.head < q.capacity
  tail_lt : q.tail < q.capacity
  tail_eq : q.tail = (q.head + q.size) % q.capacity

/-- Decidability of the structural invariant, for concrete evaluation. -/
instance {α : Type} [DecidableEq α] (q : BQueue α) : Decidable (BQInv q) :=
  decidable_of_iff (0 < q.capacity ∧ q.items.length = q.capacity ∧
      q.size ≤ q.capacity ∧ q.head < q.capacity ∧ q.tail < q.capacity ∧
      q.tail = (q.head + q.size) % q.capacity)
    ⟨fun h => ⟨h.1, h.2.1, h.2.2.1, h.2.2.2.1, h.2.2.2.2.1, h.2.2.2.2.2⟩,
     fun h => ⟨h.cap_pos, h.items_len, h.size_le, h.head_lt, h.tail_lt,
       h.tail_eq⟩⟩

/-! ### Operation traces (claim C1) -/

/-- One queue operation of a sequential commit trace.  Each C call commits
its whole critical section under `q->mtx`, so any concurrent history of
`bq_push` / `bq_try_push` / `bq_pop` / `bq_close` is a linear sequence of
these commits. -/
inductive QOp (α : Type) where
  | push (a : α)
  | tpush (a : α)
  | pop
  | close
deriving Repr, DecidableEq

/-- Apply one commit to the queue.  Returns the new state, the list of items
accepted by this commit (return value `0` of `bq_push`/`bq_try_push`) and the
list of items delivered by this commit (return value `1` of `bq_pop`).  A
blocked call (`none` step result) has not committed and changes nothing. -/
def applyOp (q : BQueue α) : QOp α → BQueue α × List α × List (Option α)
  | .push a =>
    match bq_push q a with
    | none => (q, [], [])
    | some (r, q') => (q', if r = 0 then [a] else [], [])
  | .tpush a =>
    ((bq_try_push q a).2, if (bq_try_push q a).1 = 0 then [a] else [], [])
  | .pop =>
    match bq_pop q with
    | none => (q, [], [])
    | some (r, it, q') => (q', [], if r = 1 then [it] else [])
  | .close => (bq_close q, [], [])

/-- Run a trace of commits, accumulating accepted and delivered items in
commit order. -/
def runTrace (q : BQueue α) : List (QOp α) → BQueue α × List α × List (Option α)
  | [] => (q, [], [])
  | op :: ops =>
    ((runTrace (applyOp q op).1 ops).1,
     (applyOp q op).2.1 ++ (runTrace (applyOp q op).1 ops).2.1,
     (applyOp q op).2.2 ++ (runTrace (applyOp q op).1 ops).2.2)

/-! ## `main.c`: stop latch (`request_stop`) -/

/-- The global state touched by `request_stop` (main.c:118-128): the atomic
stop flag `g_stop` and the three queues `g_raw_vq` (VideoFrame), `g_h264_q`
(EncodedPacket), `g_aud_q` (AudioChunk), kept polymorphic in their item
types. -/
structure AppState (α β γ : Type) where
  g_stop : Nat
  g_raw_vq : BQueue α
  g_h264_q : BQueue β
  g_aud_q : BQueue γ

/-- Function `request_stop` (main.c:118-128): `atomic_exchange(&g_stop, 1)` returns
the previous flag value while storing `1`; only the caller that saw `0`
closes the three queues. -/
def request_stop {α β γ : Type} (s : AppState α β γ) : AppState α β γ :=
  let prev := s.g_stop
  let s1 : AppState α β γ := { s with g_stop := 1 }
  if prev = 0 then
    { s1 with g_raw_vq := bq_close s1.g_raw_vq
              g_h264_q := bq_close s1.g_h264_q
              g_aud_q := bq_close s1.g_aud_q }
  else s1

/-! ## `main.c`: V4L2 sequence-gap drop accounting (video_capture_thread) -/

/-- The drop increment of one sequence comparison (main.c:379-384): with
`last_seq` and `cur` the `uint32_t` sequence numbers of the previous and the
current successful dequeue, the code adds
`(uint64_t)(cur - last_seq - 1)` to `drop_count` when
`cur > last_seq + 1`, else nothing.  Both the guard's `last_seq + 1` and the
subtraction are `uint32_t` arithmetic, hence the explicit `% U32`. -/
def seq_gap_add (last_seq cur : Nat) : Nat :=
  if (last_seq + 1) % U32 < cur then (cur + U32 - (last_seq + 1) % U32) % U32
  else 0

/-- Total drop count added by the sequence comparisons along a run of
successful dequeues, continuing from recorded sequence `last_seq`
(main.c:378-385). -/
def video_seq_drops_from (last_seq : Nat) : List Nat → Nat
  | [] => 0
  | cur :: rest => seq_gap_add last_seq cur + video_seq_drops_from cur rest

/-- Total drop count added by the sequence comparisons over a whole capture
run whose successful dequeues observed the given sequence values; the first
dequeue only records its sequence (`has_seq`, main.c:374-377). -/
def video_seq_drops : List Nat → Nat
  | [] => 0
  | first :: rest => video_seq_drops_from first rest

/-! ## `main.c`: audio PTS advance (audio_capture_thread) -/

/-- One PTS advance of the audio loop (main.c:595):
`pts_us += (uint64_t)frames * 1000000ULL / (uint64_t)ac.sample_rate`, in
`uint64_t` arithmetic (`frames < 2^32`, so the product itself cannot wrap;
the running sum is reduced `% U64`). -/
def audio_pts_advance (sample_rate pts_us frames : Nat) : Nat :=
  (pts_us + frames * 1000000 / sample_rate) % U64

/-- The PTS anchor after a run of audio chunks whose per-channel frame
counts are `fs`, starting from the monotonic-clock anchor `pts0` taken once
before the loop (main.c:554, 559-602): chunk `i` is stamped with the current
anchor and the anchor then advances by `f_i * 1000000 / sample_rate`. -/
def audio_pts_after (sample_rate pts0 : Nat) : List Nat → Nat
  | [] => pts0
  | f :: rest => audio_pts_after sample_rate (audio_pts_advance sample_rate pts0 f) rest

/-! ## `main.c`: PCM sink bookkeeping (pcm_sink_thread) -/

/-- The fields of an `AudioChunk` (rkav/types.h) read by the PCM sink:
`data` (`none` = `NULL` pointer), `bytes`, and `pts_us`; the remaining
fields are carried for completeness. -/
structure AudioChunk where
  data : Option (List Nat)
  bytes : Nat
  sample_rate : Nat
  channels : Nat
  bytes_per_sample : Nat
  frames : Nat
  pts_us : Nat
deriving Repr, DecidableEq

/-- The sink-local and global state touched per chunk by `pcm_sink_thread`
(main.c:696-724): the local `last_pts`, the global gauge
`g_audio_pts_delta_us`, the global counter `audio_chunks` of `g_stats`, and
a flag recording whether `request_stop` was invoked (partial write). -/
structure PcmSinkState where
  last_pts : Nat
  audio_pts_delta_us : Nat
  audio_chunks : Nat
  stop : Bool
deriving Repr, DecidableEq

/-- One iteration body of the `pcm_sink_thread` loop after a successful
`bq_pop` (main.c:706-724): update the PTS delta gauge when
`last_pts != 0 && ac->pts_us > last_pts`; set `last_pts`; if the chunk has a
payload (`data && bytes`), `fwrite` it — `written` models the `fwrite`
return value, and a short write logs and calls `request_stop`; finally
`av_stats_inc_audio_chunk` increments `audio_chunks` unconditionally. -/
def pcm_sink_step (s : PcmSinkState) (ac : AudioChunk) (written : Nat) :
    PcmSinkState :=
  let s1 := if s.last_pts ≠ 0 ∧ s.last_pts < ac.pts_us
            then { s with audio_pts_delta_us := ac.pts_us - s.last_pts }
            else s
  let s2 := { s1 with last_pts := ac.pts_us }
  let s3 := if ac.data.isSome ∧ ac.bytes ≠ 0 then
              (if written ≠ ac.bytes then { s2 with stop := true } else s2)
            else s2
  { s3 with audio_chunks := s3.audio_chunks + 1 }

/-! ## `app_config.c`: argument parsing and validation -/

/-- The `AppConfig` record (app_config.h).  Fields `width`/`height`/`fps`/`bitrate`
are C `int` (embedded as `Int`); `sample_rate`/`channels`/`audio_chunk_ms`/
`duration_sec` are `unsigned int` (embedded as `Nat` values below `2^32`). -/
structure AppConfig where
  video_device : String
  width : Int
  height : Int
  fps : Int
  bitrate : Int
  v4l2_fourcc : Nat
  audio_device : String
  sample_rate : Nat
  channels : Nat
  audio_chunk_ms : Nat
  sink_type : String
  output_path_h264 : String
  output_path_pcm : String
  duration_sec : Nat
deriving Repr, DecidableEq

/-- Function `app_config_load_default` (app_config.c:44-72). -/
def app_config_load_default : AppConfig :=
  { video_device := "/dev/video0"
    width := 1280
    height := 720
    fps := 30
    bitrate := 2000000
    v4l2_fourcc := 0
    audio_device := "hw:0,0"
    sample_rate := 48000
    channels := 2
    audio_chunk_ms := 20
    sink_type := "file"
    output_path_h264 := "out.h264"
    output_path_pcm := "out.pcm"
    duration_sec := 10 }

/-- The C conversion `(unsigned int)` applied to an `int` value. -/
def uint_of_int (n : Int) : Nat := (n % 4294967296).toNat

/-- One option event as produced by `getopt_long` over the long-option table
(app_config.c:144-157): each recognized long option with its (already
`atoi`-converted, for the numeric ones) argument; for `--size` the payload
is the `sscanf("%dx%d")` result (`none` when the two integers could not be
scanned); `help` is `-h`/`--help`; `unknown` is an option string not in the
table, for which `getopt_long` reports `?`.  The lexing itself is libc's. -/
inductive CliOpt where
  | videoDev (s : String)
  | size (v : Option (Int × Int))
  | fps (n : Int)
  | bitrate (n : Int)
  | audioDev (s : String)
  | sr (n : Int)
  | ch (n : Int)
  | sec (n : Int)
  | outH264 (s : String)
  | outPcm (s : String)
  | help
  | unknown
deriving Repr, DecidableEq

/-- Function `parse_size` (app_config.c:24-33) on the scanned payload: reject a
failed scan and non-positive width or height. -/
def parse_size (v : Option (Int × Int)) : Option (Int × Int) :=
  match v with
  | none => none
  | some (w, h) => if w ≤ 0 ∨ h ≤ 0 then none else some (w, h)

/-- Outcome of the argument-handling phase: `ok cfg` is `return 0`, `fail`
is `return -1`, and `exited code` means the process terminated inside the
option loop via `exit(code)`. -/
inductive ParseOutcome where
  | ok (cfg : AppConfig)
  | fail
  | exited (code : Int)
deriving Repr, DecidableEq

/-- Post-loop repair and validation (app_config.c:190-200): `fps ≤ 0`
becomes 30; non-positive `width`/`height` is rejected with `-1`;
`bitrate ≤ 0` becomes 2000000; `sample_rate == 0` becomes 48000;
`channels == 0` becomes 2. -/
def finish_parse_args (cfg : AppConfig) : ParseOutcome :=
  let cfg1 := if cfg.fps ≤ 0 then { cfg with fps := 30 } else cfg
  if cfg1.width ≤ 0 ∨ cfg1.height ≤ 0 then ParseOutcome.fail
  else
    let cfg2 := if cfg1.bitrate ≤ 0 then { cfg1 with bitrate := 2000000 } else cfg1
    let cfg3 := if cfg2.sample_rate = 0 then { cfg2 with sample_rate := 48000 } else cfg2
    let cfg4 := if cfg3.channels = 0 then { cfg3 with channels := 2 } else cfg3
    ParseOutcome.ok cfg4

/-- The option loop of `app_config_parse_args` (app_config.c:165-188)
followed by the post-loop validation: each case of the `switch` updates the
configuration; an invalid `--size` returns `-1`; `-h`, `--help` and any
unknown option print the usage and `exit(0)`. -/
def app_config_parse_args (cfg : AppConfig) : List CliOpt → ParseOutcome
  | [] => finish_parse_args cfg
  | opt :: rest =>
    match opt with
    | .videoDev s => app_config_parse_args { cfg with video_device := s } rest
    | .size v =>
      match parse_size v with
      | none => ParseOutcome.fail
      | some (w, h) =>
        app_config_parse_args { cfg with width := w, height := h } rest
    | .fps n => app_config_parse_args { cfg with fps := n } rest
    | .bitrate n => app_config_parse_args { cfg with bitrate := n } rest
    | .audioDev s => app_config_parse_args { cfg with audio_device := s } rest
    | .sr n => app_config_parse_args { cfg with sample_rate := uint_of_int n } rest
    | .ch n => app_config_parse_args { cfg with channels := uint_of_int n } rest
    | .sec n => app_config_parse_args { cfg with duration_sec := uint_of_int n } rest
    | .outH264 s => app_config_parse_args { cfg with output_path_h264 := s } rest
    | .outPcm s => app_config_parse_args { cfg with output_path_pcm := s } rest
    | .help => ParseOutcome.exited 0
    | .unknown => ParseOutcome.exited 0

/-- The arg-handling surface of `main` (main.c:775-780): `some code` means
the process exits with status `code` during or right after argument parsing
(`exit()` inside the option loop, or `return -1` from `main` after a failed
parse); `none` means parsing succeeded and startup continues. -/
def main_arg_exit (opts : List CliOpt) : Option Int :=
  match app_config_parse_args app_config_load_default opts with
  | ParseOutcome.exited c => some c
  | ParseOutcome.fail => some (-1)
  | ParseOutcome.ok _ => none

/-! ## Lemmas and claim theorems -/

/-! ### Ring-buffer arithmetic helpers -/

/-- Two ring offsets less than one full lap apart land on distinct slots. -/
lemma ring_index_ne {cap h i j : Nat} (hij : i < j) (hsub : j - i < cap) :
    (h + i) % cap ≠ (h + j) % cap := by
  intro heq
  have hle : h + i ≤ h + j := Nat.add_le_add_left (Nat.le_of_lt hij) h
  have hdvd : cap ∣ (h + j) - (h + i) := (Nat.modEq_iff_dvd' hle).mp heq
  have hs : (h + j) - (h + i) = j - i := by omega
  rw [hs] at hdvd
  have hpos : 0 < j - i := by omega
  have := Nat.le_of_dvd hpos hdvd
  omega

/-- Reading `getD` through a `set` at a different index. -/
lemma getD_set_ne {α : Type} (l : List (Option α)) (v : Option α) {i j : Nat}
    (h : i ≠ j) : (l.set i v).getD j none = l.getD j none := by
  rw [List.getD_eq_getElem?_getD, List.getD_eq_getElem?_getD,
    List.getElem?_set_ne h]

/-- Reading `getD` through a `set` at the same (in-bounds) index. -/
lemma getD_set_eq {α : Type} (l : List (Option α)) (v : Option α) {i : Nat}
    (h : i < l.length) : (l.set i v).getD i none = v := by
  rw [List.getD_eq_getElem?_getD, List.getElem?_set_eq_of_lt v h]
  rfl

/-- Enqueuing at `tail` (the `bq_push`/`bq_try_push` body, bqueue.c:134-136
and 170-172) appends the item to the FIFO view of the ring. -/
lemma ringList_enqueue {α : Type} (q : BQueue α) (a : α) (inv : BQInv q)
    (hlt : q.size < q.capacity) :
    ringList { q with items := q.items.set q.tail (some a)
                      tail := (q.tail + 1) % q.capacity
                      size := q.size + 1 }
      = ringList q ++ [some a] := by
  unfold ringList
  simp only
  rw [List.range_succ, List.map_append]
  congr 1
  · apply List.map_congr_left
    intro i hi
    have hilt : i < q.size := List.mem_range.mp hi
    apply getD_set_ne
    intro heq
    have : (q.head + i) % q.capacity ≠ (q.head + q.size) % q.capacity :=
      ring_index_ne hilt (by omega)
    rw [inv.tail_eq] at heq
    exact this heq.symm
  · simp only [List.map_cons, List.map_nil]
    congr 1
    rw [inv.tail_eq]
    apply getD_set_eq
    rw [inv.items_len]
    exact Nat.mod_lt _ inv.cap_pos

/-- Dequeuing at `head` (the `bq_pop` body, bqueue.c:206-209) removes the
first element of the FIFO view of the ring. -/
lemma ringList_dequeue {α : Type} (q : BQueue α) (inv : BQInv q)
    (hpos : 0 < q.size) :
    ringList q
      = q.items.getD q.head none ::
        ringList { q with items := q.items.set q.head none
                          head := (q.head + 1) % q.capacity
                          size := q.size - 1 } := by
  unfold ringList
  simp only
  obtain ⟨s, hs⟩ : ∃ s, q.size = s + 1 := ⟨q.size - 1, by omega⟩
  rw [hs]
  rw [List.range_succ_eq_map]
  simp only [List.map_cons, List.map_map, Nat.add_zero]
  have hhead : q.head % q.capacity = q.head := Nat.mod_eq_of_lt inv.head_lt
  congr 1
  · rw [hhead]
  · simp only [Nat.add_sub_cancel]
    apply List.map_congr_left
    intro i hi
    have hilt : i < s := List.mem_range.mp hi
    simp only [Function.comp_apply]
    rw [Nat.mod_add_mod]
    have h1 : q.head + 1 + i = q.head + Nat.succ i := by omega
    rw [h1]
    have hne2 : q.head ≠ (q.head + Nat.succ i) % q.capacity := by
      intro heq
      have hc : s + 1 ≤ q.capacity := by rw [← hs]; exact inv.size_le
      have hne : (q.head + 0) % q.capacity ≠ (q.head + Nat.succ i) % q.capacity :=
        ring_index_ne (by omega) (by omega)
      rw [Nat.add_zero, hhead] at hne
      exact hne heq
    rw [getD_set_ne _ _ hne2]

/-! ### Invariant preservation -/

/-- Initialization `bq_init` establishes the structural invariant. -/
lemma bqInv_init {α : Type} {cap : Nat} {q : BQueue α}
    (h : bq_init α cap = some q) :
    BQInv q ∧ q.closed = false ∧ q.size = 0 := by
  unfold bq_init at h
  by_cases hc : cap = 0
  · simp [hc] at h
  · rw [if_neg hc] at h
    have hq := (Option.some_inj.mp h).symm
    subst hq
    exact ⟨⟨Nat.pos_of_ne_zero hc, by simp, by simp,
            Nat.pos_of_ne_zero hc, Nat.pos_of_ne_zero hc, by simp⟩, rfl, rfl⟩

/-- The enqueue body preserves the structural invariant. -/
lemma bqInv_enqueue {α : Type} (q : BQueue α) (a : α) (inv : BQInv q)
    (hlt : q.size < q.capacity) :
    BQInv { q with items := q.items.set q.tail (some a)
                   tail := (q.tail + 1) % q.capacity
                   size := q.size + 1 } := by
  refine ⟨inv.cap_pos, ?_, ?_, inv.head_lt, ?_, ?_⟩
  · simp [inv.items_len]
  · exact hlt
  · exact Nat.mod_lt _ inv.cap_pos
  · simp only
    rw [inv.tail_eq, Nat.mod_add_mod, Nat.add_assoc]

/-- The dequeue body preserves the structural invariant. -/
lemma bqInv_dequeue {α : Type} (q : BQueue α) (inv : BQInv q)
    (hpos : 0 < q.size) :
    BQInv { q with items := q.items.set q.head none
                   head := (q.head + 1) % q.capacity
                   size := q.size - 1 } := by
  refine ⟨inv.cap_pos, ?_, ?_, ?_, inv.tail_lt, ?_⟩
  · simp [inv.items_len]
  · exact Nat.le_trans (Nat.sub_le _ _) inv.size_le
  · exact Nat.mod_lt _ inv.cap_pos
  · simp only
    rw [inv.tail_eq, Nat.mod_add_mod]
    congr 1
    omega

/-- Closing `bq_close` preserves the structural invariant. -/
lemma bqInv_close {α : Type} (q : BQueue α) (inv : BQInv q) :
    BQInv (bq_close q) :=
  ⟨inv.cap_pos, inv.items_len, inv.size_le, inv.head_lt, inv.tail_lt,
   inv.tail_eq⟩

/-- A queue with `size = 0` has an empty FIFO view. -/
lemma ringList_size_zero {α : Type} {q : BQueue α} (h : q.size = 0) :
    ringList q = [] := by
  simp [ringList, h]

/-- One commit preserves the invariant and the conservation equation:
items delivered now plus items still resident equal items previously
resident plus items accepted now, in FIFO order. -/
lemma applyOp_conserv {α : Type} (q : BQueue α) (op : QOp α) (inv : BQInv q) :
    BQInv (applyOp q op).1 ∧
    (applyOp q op).2.2 ++ ringList (applyOp q op).1
      = ringList q ++ ((applyOp q op).2.1).map some := by
  cases op with
  | push a =>
    by_cases h1 : q.closed = false ∧ q.size = q.capacity
    · have hd : applyOp q (.push a) = (q, [], []) := by
        simp [applyOp, bq_push, h1]
      rw [hd]
      exact ⟨inv, by simp⟩
    · by_cases h2 : q.closed
      · have hp : bq_push q a = some (-1, q) := by
          unfold bq_push
          rw [if_neg h1, if_pos h2]
        have hd : applyOp q (.push a) = (q, [], []) := by
          simp [applyOp, hp]
        rw [hd]
        exact ⟨inv, by simp⟩
      · have hcf : q.closed = false := by simpa using h2
        have hsz : q.size ≠ q.capacity := fun h => h1 ⟨hcf, h⟩
        have hlt : q.size < q.capacity := Nat.lt_of_le_of_ne inv.size_le hsz
        have hp : bq_push q a
            = some (0, { q with items := q.items.set q.tail (some a)
                                tail := (q.tail + 1) % q.capacity
                                size := q.size + 1 }) := by
          unfold bq_push
          rw [if_neg h1, if_neg h2]
        have hd : applyOp q (.push a)
            = ({ q with items := q.items.set q.tail (some a)
                        tail := (q.tail + 1) % q.capacity
                        size := q.size + 1 }, [a], []) := by
          simp [applyOp, hp]
        rw [hd]
        refine ⟨bqInv_enqueue q a inv hlt, ?_⟩
        rw [List.nil_append, ringList_enqueue q a inv hlt]
        simp
  | tpush a =>
    by_cases h2 : q.closed
    · have hd : applyOp q (.tpush a) = (q, [], []) := by
        simp [applyOp, bq_try_push, h2]
      rw [hd]
      exact ⟨inv, by simp⟩
    · by_cases h1 : q.size = q.capacity
      · have hd : applyOp q (.tpush a) = (q, [], []) := by
          simp [applyOp, bq_try_push, h2, h1]
        rw [hd]
        exact ⟨inv, by simp⟩
      · have hlt : q.size < q.capacity := Nat.lt_of_le_of_ne inv.size_le h1
        have hp : bq_try_push q a
            = (0, { q with items := q.items.set q.tail (some a)
                           tail := (q.tail + 1) % q.capacity
                           size := q.size + 1 }) := by
          unfold bq_try_push
          rw [if_neg h2, if_neg h1]
        have hd : applyOp q (.tpush a)
            = ({ q with items := q.items.set q.tail (some a)
                        tail := (q.tail + 1) % q.capacity
                        size := q.size + 1 }, [a], []) := by
          simp [applyOp, hp]
        rw [hd]
        refine ⟨bqInv_enqueue q a inv hlt, ?_⟩
        rw [List.nil_append, ringList_enqueue q a inv hlt]
        simp
  | pop =>
    by_cases h1 : q.closed = false ∧ q.size = 0
    · have hd : applyOp q .pop = (q, [], []) := by
        simp [applyOp, bq_pop, h1]
      rw [hd]
      exact ⟨inv, by simp⟩
    · by_cases h2 : q.size = 0 ∧ q.closed = true
      · have hp : bq_pop q = some (0, none, q) := by
          unfold bq_pop
          rw [if_neg h1, if_pos h2]
        have hd : applyOp q .pop = (q, [], []) := by
          simp [applyOp, hp]
        rw [hd]
        exact ⟨inv, by simp⟩
      · have hpos : 0 < q.size := by
          rcases Nat.eq_zero_or_pos q.size with h | h
          · rcases Bool.eq_false_or_eq_true q.closed with hc | hc
            · exact absurd ⟨h, hc⟩ h2
            · exact absurd ⟨hc, h⟩ h1
          · exact h
        have hp : bq_pop q
            = some (1, q.items.getD q.head none,
                    { q with items := q.items.set q.head none
                             head := (q.head + 1) % q.capacity
                             size := q.size - 1 }) := by
          unfold bq_pop
          rw [if_neg h1, if_neg h2]
        have hd : applyOp q .pop
            = ({ q with items := q.items.set q.head none
                        head := (q.head + 1) % q.capacity
                        size := q.size - 1 },
               [], [q.items.getD q.head none]) := by
          simp [applyOp, hp]
        rw [hd]
        refine ⟨bqInv_dequeue q inv hpos, ?_⟩
        rw [List.map_nil, List.append_nil, List.singleton_append]
        exact (ringList_dequeue q inv hpos).symm
  | close =>
    have hd : applyOp q .close = (bq_close q, [], []) := rfl
    rw [hd]
    refine ⟨bqInv_close q inv, ?_⟩
    have hr : ringList (bq_close q) = ringList q := rfl
    rw [hr]
    simp

/-- Trace-level conservation: delivered items followed by the residual ring
contents equal the initial ring contents followed by accepted items. -/
lemma runTrace_conserv {α : Type} (ops : List (QOp α)) (q : BQueue α)
    (inv : BQInv q) :
    BQInv (runTrace q ops).1 ∧
    (runTrace q ops).2.2 ++ ringList (runTrace q ops).1
      = ringList q ++ ((runTrace q ops).2.1).map some := by
  induction ops generalizing q with
  | nil => exact ⟨inv, by simp [runTrace]⟩
  | cons op ops ih =>
    obtain ⟨inv1, hcons⟩ := applyOp_conserv q op inv
    obtain ⟨inv2, hcons2⟩ := ih (applyOp q op).1 inv1
    refine ⟨inv2, ?_⟩
    simp only [runTrace]
    calc ((applyOp q op).2.2 ++ (runTrace (applyOp q op).1 ops).2.2)
          ++ ringList (runTrace (applyOp q op).1 ops).1
        = (applyOp q op).2.2 ++ ((runTrace (applyOp q op).1 ops).2.2
            ++ ringList (runTrace (applyOp q op).1 ops).1) := by
          rw [List.append_assoc]
      _ = (applyOp q op).2.2 ++ (ringList (applyOp q op).1
            ++ ((runTrace (applyOp q op).1 ops).2.1).map some) := by
          rw [hcons2]
      _ = ((applyOp q op).2.2 ++ ringList (applyOp q op).1)
            ++ ((runTrace (applyOp q op).1 ops).2.1).map some := by
          rw [List.append_assoc]
      _ = (ringList q ++ ((applyOp q op).2.1).map some)
            ++ ((runTrace (applyOp q op).1 ops).2.1).map some := by
          rw [hcons]
      _ = ringList q ++ (((applyOp q op).2.1).map some
            ++ ((runTrace (applyOp q op).1 ops).2.1).map some) := by
          rw [List.append_assoc]
      _ = ringList q
            ++ (((applyOp q op).2.1 ++ (runTrace (applyOp q op).1 ops).2.1).map some) := by
          rw [List.map_append]

/-! ## Claim theorems about the queue -/

/-- C1.  For every sequence of queue-operation commits on a queue freshly
produced by `bq_init`, the sequence of items delivered by `bq_pop` (return
value `1`) is a prefix of the sequence of items accepted (return value `0`)
by `bq_push`/`bq_try_push`, in acceptance order: FIFO, no item delivered
twice, none reordered. -/
theorem bq_fifo_C1 (cap : Nat) (q0 : BQueue Nat) (ops : List (QOp Nat))
    (hinit : bq_init Nat cap = some q0) :
    ∃ rest, (runTrace q0 ops).2.2 ++ rest
      = ((runTrace q0 ops).2.1).map some := by
  obtain ⟨inv, _, hsz⟩ := bqInv_init hinit
  obtain ⟨_, hcons⟩ := runTrace_conserv ops q0 inv
  refine ⟨ringList (runTrace q0 ops).1, ?_⟩
  rw [hcons, ringList_size_zero hsz, List.nil_append]

/-- Witness for C1 at a concrete trace: capacity 2,
push 1, try-push 2, pop, pop. -/
theorem bq_fifo_C1_witness :
    ∃ rest,
      (runTrace (⟨[none, none], 2, 0, 0, 0, false⟩ : BQueue Nat)
        [QOp.push 1, QOp.tpush 2, QOp.pop, QOp.pop]).2.2 ++ rest
      = ((runTrace (⟨[none, none], 2, 0, 0, 0, false⟩ : BQueue Nat)
        [QOp.push 1, QOp.tpush 2, QOp.pop, QOp.pop]).2.1).map some :=
  bq_fifo_C1 2 _ _ rfl

/-- C2.  Function `bq_pop` returns the terminal sentinel (`0`, no item, state
untouched) exactly when `size = 0` and `closed`; on a non-empty queue it
delivers an item with return value `1` (closed or not), decrementing `size`
and leaving `closed` unchanged — so after close the remaining items drain
before the first terminal return, and a closed drained queue answers every
subsequent pop with the terminal sentinel. -/
theorem bq_pop_terminal_C2 (q : BQueue Nat) :
    (bq_pop q = some (0, none, q) ↔ q.size = 0 ∧ q.closed = true) ∧
    (q.size ≠ 0 → ∃ (it : Option Nat) (q' : BQueue Nat),
        bq_pop q = some (1, it, q') ∧ q'.size = q.size - 1 ∧
        q'.closed = q.closed) ∧
    (q.size = 0 → q.closed = true → bq_pop q = some (0, none, q)) := by
  by_cases h1 : q.closed = false ∧ q.size = 0
  · have hp : bq_pop q = none := by
      unfold bq_pop
      rw [if_pos h1]
    refine ⟨?_, ?_, ?_⟩
    · rw [hp]
      constructor
      · intro h
        exact absurd h (by simp)
      · rintro ⟨-, hc⟩
        rw [h1.1] at hc
        exact absurd hc (by simp)
    · intro h
      exact absurd h1.2 h
    · intro _ hc
      rw [h1.1] at hc
      exact absurd hc (by simp)
  · by_cases h2 : q.size = 0 ∧ q.closed = true
    · have hp : bq_pop q = some (0, none, q) := by
        unfold bq_pop
        rw [if_neg h1, if_pos h2]
      refine ⟨⟨fun _ => h2, fun _ => hp⟩, ?_, fun _ _ => hp⟩
      intro h
      exact absurd h2.1 h
    · have hpos : 0 < q.size := by
        rcases Nat.eq_zero_or_pos q.size with h | h
        · rcases Bool.eq_false_or_eq_true q.closed with hc | hc
          · exact absurd ⟨h, hc⟩ h2
          · exact absurd ⟨hc, h⟩ h1
        · exact h
      have hp : bq_pop q
          = some (1, q.items.getD q.head none,
                  { q with items := q.items.set q.head none
                           head := (q.head + 1) % q.capacity
                           size := q.size - 1 }) := by
        unfold bq_pop
        rw [if_neg h1, if_neg h2]
      refine ⟨?_, ?_, ?_⟩
      · rw [hp]
        constructor
        · intro h
          have := (Prod.ext_iff.mp (Option.some_inj.mp h)).1
          exact absurd this (by simp)
        · rintro ⟨hz, -⟩
          omega
      · intro _
        exact ⟨q.items.getD q.head none, _, hp, rfl, rfl⟩
      · intro hz
        omega

/-- Witness for C2: popping the non-empty closed queue `⟨[some 5]⟩` delivers
the item; popping the drained closed queue returns the terminal sentinel. -/
theorem bq_pop_terminal_C2_witness :
    (∃ (it : Option Nat) (q' : BQueue Nat),
        bq_pop (⟨[some 5], 1, 1, 0, 0, true⟩ : BQueue Nat)
          = some (1, it, q') ∧
        q'.size = (⟨[some 5], 1, 1, 0, 0, true⟩ : BQueue Nat).size - 1 ∧
        q'.closed = (⟨[some 5], 1, 1, 0, 0, true⟩ : BQueue Nat).closed) ∧
    bq_pop (⟨[none], 1, 0, 0, 0, true⟩ : BQueue Nat)
      = some (0, none, (⟨[none], 1, 0, 0, 0, true⟩ : BQueue Nat)) :=
  ⟨(bq_pop_terminal_C2 ⟨[some 5], 1, 1, 0, 0, true⟩).2.1 (by decide),
   (bq_pop_terminal_C2 ⟨[none], 1, 0, 0, 0, true⟩).2.2 rfl rfl⟩

/-- C3.  Function `bq_try_push` has exactly three outcomes: `-1` (Closed) with the
queue untouched when `closed`; else `1` (Full) with the queue untouched when
`size = capacity`; else it appends the item to the FIFO contents and returns
`0` (Ok).  After `bq_close`, both `bq_push` and `bq_try_push` fail with
`-1`, full or not. -/
theorem bq_try_push_C3 (q : BQueue Nat) (a : Nat) :
    (q.closed = true → bq_try_push q a = (-1, q)) ∧
    (q.closed = false → q.size = q.capacity → bq_try_push q a = (1, q)) ∧
    (q.closed = false → q.size ≠ q.capacity → BQInv q →
        (bq_try_push q a).1 = 0 ∧
        ringList (bq_try_push q a).2 = ringList q ++ [some a]) ∧
    bq_try_push (bq_close q) a = (-1, bq_close q) ∧
    bq_push (bq_close q) a = some (-1, bq_close q) := by
  refine ⟨?_, ?_, ?_, ?_, ?_⟩
  · intro hc
    unfold bq_try_push
    rw [if_pos hc]
  · intro hc hf
    unfold bq_try_push
    rw [if_neg (by simp [hc]), if_pos hf]
  · intro hc hf inv
    have hlt : q.size < q.capacity := Nat.lt_of_le_of_ne inv.size_le hf
    have hp : bq_try_push q a
        = (0, { q with items := q.items.set q.tail (some a)
                       tail := (q.tail + 1) % q.capacity
                       size := q.size + 1 }) := by
      unfold bq_try_push
      rw [if_neg (by simp [hc]), if_neg hf]
    rw [hp]
    exact ⟨rfl, ringList_enqueue q a inv hlt⟩
  · simp [bq_try_push, bq_close]
  · simp [bq_push, bq_close]

/-- Witness for C3: a closed queue rejects, a full open queue reports full,
and an open non-full queue (here `⟨[some 1, none]⟩`, size 1, capacity 2)
accepts and appends. -/
theorem bq_try_push_C3_witness :
    bq_try_push (⟨[none], 1, 0, 0, 0, true⟩ : BQueue Nat) 9
      = (-1, (⟨[none], 1, 0, 0, 0, true⟩ : BQueue Nat)) ∧
    bq_try_push (⟨[some 1], 1, 1, 0, 0, false⟩ : BQueue Nat) 9
      = (1, (⟨[some 1], 1, 1, 0, 0, false⟩ : BQueue Nat)) ∧
    ((bq_try_push (⟨[some 1, none], 2, 1, 0, 1, false⟩ : BQueue Nat) 9).1 = 0 ∧
      ringList (bq_try_push (⟨[some 1, none], 2, 1, 0, 1, false⟩ : BQueue Nat) 9).2
        = ringList (⟨[some 1, none], 2, 1, 0, 1, false⟩ : BQueue Nat) ++ [some 9]) :=
  ⟨(bq_try_push_C3 ⟨[none], 1, 0, 0, 0, true⟩ 9).1 rfl,
   (bq_try_push_C3 ⟨[some 1], 1, 1, 0, 0, false⟩ 9).2.1 rfl rfl,
   (bq_try_push_C3 ⟨[some 1, none], 2, 1, 0, 1, false⟩ 9).2.2.1 rfl
     (by decide) (by decide)⟩

/-- C9.  The structural invariant `0 ≤ size ≤ capacity`, `head < capacity`,
`tail < capacity`, `tail = (head + size) % capacity` is established by
`bq_init` (which requires `capacity ≥ 1`) and preserved by every committed
`bq_push`, `bq_try_push`, `bq_pop` and by `bq_close`; the `closed` flag is
left unchanged by push/try-push/pop and only ever set (to `1`) by close,
never cleared. -/
theorem bq_structural_invariant_C9 :
    (∀ (cap : Nat) (q : BQueue Nat), 1 ≤ cap → bq_init Nat cap = some q →
        BQInv q ∧ q.closed = false) ∧
    (∀ (q q' : BQueue Nat) (a : Nat) (r : Int), BQInv q →
        bq_push q a = some (r, q') → BQInv q' ∧ q'.closed = q.closed) ∧
    (∀ (q : BQueue Nat) (a : Nat), BQInv q →
        BQInv (bq_try_push q a).2 ∧ (bq_try_push q a).2.closed = q.closed) ∧
    (∀ (q q' : BQueue Nat) (r : Int) (it : Option Nat), BQInv q →
        bq_pop q = some (r, it, q') → BQInv q' ∧ q'.closed = q.closed) ∧
    (∀ (q : BQueue Nat), BQInv q →
        BQInv (bq_close q) ∧ (bq_close q).closed = true) := by
  refine ⟨?_, ?_, ?_, ?_, ?_⟩
  · intro cap q _ hinit
    obtain ⟨inv, hc, -⟩ := bqInv_init hinit
    exact ⟨inv, hc⟩
  · intro q q' a r inv h
    by_cases h1 : q.closed = false ∧ q.size = q.capacity
    · unfold bq_push at h
      rw [if_pos h1] at h
      exact absurd h (by simp)
    · by_cases h2 : q.closed
      · unfold bq_push at h
        rw [if_neg h1, if_pos h2] at h
        simp only [Option.some_inj, Prod.mk.injEq] at h
        obtain ⟨-, hq⟩ := h
        subst hq
        exact ⟨inv, rfl⟩
      · have hcf : q.closed = false := by simpa using h2
        have hsz : q.size ≠ q.capacity := fun hh => h1 ⟨hcf, hh⟩
        have hlt : q.size < q.capacity := Nat.lt_of_le_of_ne inv.size_le hsz
        unfold bq_push at h
        rw [if_neg h1, if_neg h2] at h
        simp only [Option.some_inj, Prod.mk.injEq] at h
        obtain ⟨-, hq⟩ := h
        subst hq
        exact ⟨bqInv_enqueue q a inv hlt, rfl⟩
  · intro q a inv
    by_cases h2 : q.closed
    · have hp : bq_try_push q a = (-1, q) := by
        unfold bq_try_push
        rw [if_pos h2]
      rw [hp]
      exact ⟨inv, rfl⟩
    · by_cases h1 : q.size = q.capacity
      · have hp : bq_try_push q a = (1, q) := by
          unfold bq_try_push
          rw [if_neg h2, if_pos h1]
        rw [hp]
        exact ⟨inv, rfl⟩
      · have hlt : q.size < q.capacity := Nat.lt_of_le_of_ne inv.size_le h1
        have hp : bq_try_push q a
            = (0, { q with items := q.items.set q.tail (some a)
                           tail := (q.tail + 1) % q.capacity
                           size := q.size + 1 }) := by
          unfold bq_try_push
          rw [if_neg h2, if_neg h1]
        rw [hp]
        exact ⟨bqInv_enqueue q a inv hlt, rfl⟩
  · intro q q' r it inv h
    by_cases h1 : q.closed = false ∧ q.size = 0
    · unfold bq_pop at h
      rw [if_pos h1] at h
      exact absurd h (by simp)
    · by_cases h2 : q.size = 0 ∧ q.closed = true
      · unfold bq_pop at h
        rw [if_neg h1, if_pos h2] at h
        simp only [Option.some_inj, Prod.mk.injEq] at h
        obtain ⟨-, -, hq⟩ := h
        subst hq
        exact ⟨inv, rfl⟩
      · have hpos : 0 < q.size := by
          rcases Nat.eq_zero_or_pos q.size with hz | hz
          · rcases Bool.eq_false_or_eq_true q.closed with hc | hc
            · exact absurd ⟨hz, hc⟩ h2
            · exact absurd ⟨hc, hz⟩ h1
          · exact hz
        unfold bq_pop at h
        rw [if_neg h1, if_neg h2] at h
        simp only [Option.some_inj, Prod.mk.injEq] at h
        obtain ⟨-, -, hq⟩ := h
        subst hq
        exact ⟨bqInv_dequeue q inv hpos, rfl⟩
  · intro q inv
    exact ⟨bqInv_close q inv, rfl⟩

/-- Witness for C9 at concrete queues: initialization at capacity 2, a push
on an empty open queue, a try-push on it, a pop on a singleton queue, and a
close. -/
theorem bq_structural_invariant_C9_witness :
    (BQInv (⟨[none, none], 2, 0, 0, 0, false⟩ : BQueue Nat) ∧
      (⟨[none, none], 2, 0, 0, 0, false⟩ : BQueue Nat).closed = false) ∧
    (BQInv (⟨[some 4], 1, 1, 0, 0, false⟩ : BQueue Nat) ∧
      (⟨[some 4], 1, 1, 0, 0, false⟩ : BQueue Nat).closed
        = (⟨[none], 1, 0, 0, 0, false⟩ : BQueue Nat).closed) ∧
    (BQInv (bq_try_push (⟨[none], 1, 0, 0, 0, false⟩ : BQueue Nat) 4).2 ∧
      (bq_try_push (⟨[none], 1, 0, 0, 0, false⟩ : BQueue Nat) 4).2.closed
        = (⟨[none], 1, 0, 0, 0, false⟩ : BQueue Nat).closed) ∧
    (BQInv (⟨[none], 1, 0, 1 % 1, 0, false⟩ : BQueue Nat) ∧
      (⟨[none], 1, 0, 1 % 1, 0, false⟩ : BQueue Nat).closed
        = (⟨[some 4], 1, 1, 0, 0, false⟩ : BQueue Nat).closed) ∧
    (BQInv (bq_close (⟨[none], 1, 0, 0, 0, false⟩ : BQueue Nat)) ∧
      (bq_close (⟨[none], 1, 0, 0, 0, false⟩ : BQueue Nat)).closed = true) :=
  ⟨bq_structural_invariant_C9.1 2 _ (by decide) rfl,
   bq_structural_invariant_C9.2.1 ⟨[none], 1, 0, 0, 0, false⟩ _ 4 0
     (by decide) rfl,
   bq_structural_invariant_C9.2.2.1 ⟨[none], 1, 0, 0, 0, false⟩ 4 (by decide),
   bq_structural_invariant_C9.2.2.2.1 ⟨[some 4], 1, 1, 0, 0, false⟩ _ 1
     (some 4) (by decide) rfl,
   bq_structural_invariant_C9.2.2.2.2 ⟨[none], 1, 0, 0, 0, false⟩ (by decide)⟩

/-- On a state whose flag is already `1`, `request_stop` is the identity. -/
lemma request_stop_stopped {α β γ : Type} (s : AppState α β γ)
    (h : s.g_stop = 1) : request_stop s = s := by
  rcases s with ⟨g, r1, r2, r3⟩
  have h' : g = 1 := h
  subst h'
  rfl

/-- Every call leaves the flag at `1`. -/
lemma request_stop_g_stop {α β γ : Type} (s : AppState α β γ) :
    (request_stop s).g_stop = 1 := by
  by_cases h : s.g_stop = 0 <;> simp [request_stop, h]

/-- C4.  Function `request_stop` is idempotent: only the first call (the one seeing
`g_stop = 0`) closes the three queues; a repeated call changes no state, the
flag is never reset, and `bq_close` twice equals `bq_close` once. -/
theorem request_stop_idempotent_C4 (s : AppState Nat Nat Nat) :
    request_stop (request_stop s) = request_stop s ∧
    (∀ n : Nat, request_stop^[n + 1] s = request_stop s) ∧
    (request_stop s).g_stop = 1 ∧
    (s.g_stop = 0 →
        (request_stop s).g_raw_vq = bq_close s.g_raw_vq ∧
        (request_stop s).g_h264_q = bq_close s.g_h264_q ∧
        (request_stop s).g_aud_q = bq_close s.g_aud_q) ∧
    (s.g_stop = 1 → request_stop s = s) ∧
    (∀ q : BQueue Nat, bq_close (bq_close q) = bq_close q) := by
  have hid : request_stop (request_stop s) = request_stop s :=
    request_stop_stopped _ (request_stop_g_stop s)
  refine ⟨hid, ?_, request_stop_g_stop s, ?_, request_stop_stopped s, ?_⟩
  · intro n
    induction n with
    | zero => rfl
    | succ m ih =>
      rw [Function.iterate_succ_apply', ih, hid]
  · intro h
    unfold request_stop
    rw [if_pos h]
    exact ⟨rfl, rfl, rfl⟩
  · intro q
    rfl

/-- Witness for C4: the first call from a running state closes the queues;
a call on an already-stopped state is the identity. -/
theorem request_stop_idempotent_C4_witness :
    ((request_stop (⟨0, ⟨[none], 1, 0, 0, 0, false⟩, ⟨[none], 1, 0, 0, 0, false⟩,
        ⟨[none], 1, 0, 0, 0, false⟩⟩ : AppState Nat Nat Nat)).g_raw_vq
        = bq_close ⟨[none], 1, 0, 0, 0, false⟩ ∧
      (request_stop (⟨0, ⟨[none], 1, 0, 0, 0, false⟩, ⟨[none], 1, 0, 0, 0, false⟩,
        ⟨[none], 1, 0, 0, 0, false⟩⟩ : AppState Nat Nat Nat)).g_h264_q
        = bq_close ⟨[none], 1, 0, 0, 0, false⟩ ∧
      (request_stop (⟨0, ⟨[none], 1, 0, 0, 0, false⟩, ⟨[none], 1, 0, 0, 0, false⟩,
        ⟨[none], 1, 0, 0, 0, false⟩⟩ : AppState Nat Nat Nat)).g_aud_q
        = bq_close ⟨[none], 1, 0, 0, 0, false⟩) ∧
    request_stop (⟨1, ⟨[none], 1, 0, 0, 0, true⟩, ⟨[none], 1, 0, 0, 0, true⟩,
        ⟨[none], 1, 0, 0, 0, true⟩⟩ : AppState Nat Nat Nat)
      = ⟨1, ⟨[none], 1, 0, 0, 0, true⟩, ⟨[none], 1, 0, 0, 0, true⟩,
        ⟨[none], 1, 0, 0, 0, true⟩⟩ :=
  ⟨(request_stop_idempotent_C4 _).2.2.2.1 rfl,
   (request_stop_idempotent_C4 _).2.2.2.2.1 rfl⟩

/-- Counterexample to C5 as stated: at the `uint32_t` wrap corner
`prev = 4294967295`, `cur = 1` we have `cur ≤ prev + 1`, so the claim says
the comparison adds nothing, yet the code's wrapped guard
`cur > (uint32_t)(prev + 1) = 0` fires and adds `(uint32_t)(cur - prev - 1)
= 1` to `drop_count`. -/
theorem video_seq_gap_C5_counterexample :
    ¬ (4294967295 + 1 < 1) ∧ seq_gap_add 4294967295 1 = 1 ∧
    video_seq_drops [4294967295, 1] = 1 := by
  refine ⟨by omega, ?_, ?_⟩ <;> decide

/-- C5 (amended).  For sequence values in `uint32_t` range with
`prev + 1` not wrapping (`prev + 1 < 2^32`): a successful dequeue after the
first adds `cur - prev - 1` to `drop_count` when `cur > prev + 1` and
nothing otherwise, and a jump from sequence 5 to 9 adds exactly 3. -/
theorem video_seq_gap_C5 (prev cur : Nat) (hprev : prev + 1 < U32)
    (hcur : cur < U32) (rest : List Nat) :
    (prev + 1 < cur → seq_gap_add prev cur = cur - prev - 1) ∧
    (¬ prev + 1 < cur → seq_gap_add prev cur = 0) ∧
    video_seq_drops_from prev (cur :: rest)
      = seq_gap_add prev cur + video_seq_drops_from cur rest ∧
    video_seq_drops [5, 9] = 3 := by
  have h1 : (prev + 1) % U32 = prev + 1 := Nat.mod_eq_of_lt hprev
  refine ⟨?_, ?_, rfl, by decide⟩
  · intro hlt
    unfold seq_gap_add
    rw [h1, if_pos hlt]
    have h2 : cur + U32 - (prev + 1) = U32 + (cur - prev - 1) := by
      unfold U32 at *
      omega
    rw [h2, Nat.add_mod_left]
    exact Nat.mod_eq_of_lt (by unfold U32 at *; omega)
  · intro hge
    unfold seq_gap_add
    rw [h1, if_neg hge]

/-- Witness for C5 (amended) at the spec's concrete jump 5 → 9. -/
theorem video_seq_gap_C5_witness :
    seq_gap_add 5 9 = 9 - 5 - 1 :=
  (video_seq_gap_C5 5 9 (by decide) (by decide) []).1 (by decide)

/-- Counterexample to C6 as stated: with `sample_rate = 48000` and two
chunks of 7 frames each, the code's per-chunk integer divisions give
`pts[2] - pts[0] = 145 + 145 = 290`, while the claim's
`sum(f_i) * 1_000_000 / sample_rate = 14_000_000 / 48_000 = 291`. -/
theorem audio_pts_C6_counterexample :
    audio_pts_after 48000 0 [7, 7] = 290 ∧
    0 + List.sum [7, 7] * 1000000 / 48000 = 291 := by
  constructor <;> decide

/-- C6 (amended).  After `k` chunks with per-channel frame counts
`f_0..f_{k-1}` the anchor equals
`pts[0] + sum_i (f_i * 1_000_000 / sample_rate)` — the integer division is
applied per chunk and the quotients are summed (all modulo `2^64`), not the
division of the summed frame count. -/
theorem audio_pts_advance_C6 (sample_rate pts0 : Nat) (fs : List Nat)
    (h0 : pts0 < U64) :
    audio_pts_after sample_rate pts0 fs
      = (pts0 + (fs.map (fun f => f * 1000000 / sample_rate)).sum) % U64 := by
  induction fs generalizing pts0 with
  | nil =>
    simp [audio_pts_after, Nat.mod_eq_of_lt h0]
  | cons f rest ih =>
    have hlt : audio_pts_advance sample_rate pts0 f < U64 :=
      Nat.mod_lt _ (by decide)
    simp only [audio_pts_after]
    rw [ih _ hlt]
    unfold audio_pts_advance
    rw [Nat.mod_add_mod]
    congr 1
    simp [List.sum_cons]
    omega

/-- Witness for C6 (amended) at the counterexample's input. -/
theorem audio_pts_advance_C6_witness :
    audio_pts_after 48000 0 [7, 7]
      = (0 + ([7, 7].map (fun f => f * 1000000 / 48000)).sum) % U64 :=
  audio_pts_advance_C6 48000 0 [7, 7] (by decide)

/-- Counterexample to C7 as stated: a chunk whose `fwrite` is partial
(10 payload bytes, 3 written — which does trigger `request_stop`) still
increments `audio_chunks`, as does a chunk carrying no payload at all. -/
theorem pcm_sink_C7_counterexample :
    (pcm_sink_step ⟨0, 0, 0, false⟩ ⟨some [1], 10, 48000, 2, 2, 5, 100⟩
        3).audio_chunks = 1 ∧
    (pcm_sink_step ⟨0, 0, 0, false⟩ ⟨some [1], 10, 48000, 2, 2, 5, 100⟩
        3).stop = true ∧
    (pcm_sink_step ⟨0, 0, 0, false⟩ ⟨none, 0, 48000, 2, 2, 0, 100⟩
        0).audio_chunks = 1 := by
  refine ⟨rfl, rfl, rfl⟩

/-- C7 (amended).  Counter `audio_chunks` is incremented exactly once per chunk
popped from the audio queue, regardless of the write outcome or payload;
`audio_pts_delta_us` is set to `pts_us - last_pts` exactly when
`last_pts ≠ 0` and `pts_us > last_pts`; `last_pts` always becomes the
chunk's PTS; `request_stop` fires exactly on a short write of a non-empty
payload. -/
theorem pcm_sink_C7 (s : PcmSinkState) (ac : AudioChunk) (written : Nat) :
    (pcm_sink_step s ac written).audio_chunks = s.audio_chunks + 1 ∧
    (pcm_sink_step s ac written).audio_pts_delta_us
      = (if s.last_pts ≠ 0 ∧ s.last_pts < ac.pts_us
         then ac.pts_us - s.last_pts else s.audio_pts_delta_us) ∧
    (pcm_sink_step s ac written).last_pts = ac.pts_us ∧
    ((pcm_sink_step s ac written).stop = true ↔
      (s.stop = true ∨
        (ac.data.isSome ∧ ac.bytes ≠ 0 ∧ written ≠ ac.bytes))) := by
  unfold pcm_sink_step
  split_ifs with h1 h2 h3 h2 <;> simp_all

/-- C8, evaluated at the failing input: an unknown option makes the process
print the usage and `exit(0)` — exit status 0 despite the invalid command
line — while an invalid `--size` (unscannable, or non-positive dimensions)
does exit non-zero. -/
theorem main_arg_exit_C8 :
    main_arg_exit [CliOpt.unknown] = some 0 ∧
    main_arg_exit [CliOpt.size none] = some (-1) ∧
    main_arg_exit [CliOpt.size (some (0, 480))] = some (-1) :=
  ⟨rfl, rfl, rfl⟩

/-- C10.  The post-parse validation repairs rather than rejects every
non-positive numeric field except the frame size: `fps ≤ 0 → 30`,
`bitrate ≤ 0 → 2000000`, `sample_rate = 0 → 48000`, `channels = 0 → 2`,
returning success; it fails on a numeric field exactly when `width` or
`height` is non-positive after parsing. -/
theorem app_config_repair_C10 (cfg : AppConfig) :
    (cfg.width ≤ 0 ∨ cfg.height ≤ 0 →
        finish_parse_args cfg = ParseOutcome.fail) ∧
    (¬(cfg.width ≤ 0 ∨ cfg.height ≤ 0) →
        finish_parse_args cfg = ParseOutcome.ok
          { cfg with
              fps := if cfg.fps ≤ 0 then 30 else cfg.fps
              bitrate := if cfg.bitrate ≤ 0 then 2000000 else cfg.bitrate
              sample_rate := if cfg.sample_rate = 0 then 48000
                             else cfg.sample_rate
              channels := if cfg.channels = 0 then 2 else cfg.channels }) := by
  constructor
  · intro h
    by_cases hf : cfg.fps ≤ 0 <;> simp [finish_parse_args, hf, h]
  · intro h
    by_cases hf : cfg.fps ≤ 0 <;> by_cases hb : cfg.bitrate ≤ 0 <;>
      by_cases hs : cfg.sample_rate = 0 <;> by_cases hc : cfg.channels = 0 <;>
      simp [finish_parse_args, hf, hb, hs, hc, h]

/-- Witness for C10: a config with `width = -1` is rejected; the default
config with `fps = -5`, `bitrate = 0`, `sample_rate = 0`, `channels = 0` is
repaired to 30 / 2000000 / 48000 / 2 and accepted. -/
theorem app_config_repair_C10_witness :
    finish_parse_args { app_config_load_default with width := -1 }
      = ParseOutcome.fail ∧
    finish_parse_args { app_config_load_default with
        fps := -5, bitrate := 0, sample_rate := 0, channels := 0 }
      = ParseOutcome.ok { app_config_load_default with
          fps := 30, bitrate := 2000000, sample_rate := 48000, channels := 2 } :=
  ⟨(app_config_repair_C10 _).1 (by decide),
   (app_config_repair_C10 _).2 (by decide)⟩
